import Mathlib

/-!
Verification of the stream-state core of `src/frontend/app.js` (Stock_widget).

Numbers (JS float64) are modelled as `ℚ`; timestamps as `Nat`.  The mutable
globals `latestPrices`, `chartSymbol`, `chartHistory` (and the chart handle's
presence) are gathered in `AppState`; the fallback guard `usingMockFeed`
together with an instrumentation counter for `startMockFeed` invocations is
`FallbackState`.  Each definition embeds the correspondingly named piece of
the source file.
-/

namespace StockWidget

/-- `TRACKED_SYMBOLS` from app.js line 6. -/
def TRACKED_SYMBOLS : List String := ["AAPL", "TSLA", "NVDA", "MSFT"]

/-- A quote as stored in `latestPrices`: an object with `symbol`, `price`,
`change`, `percentChange`, `ts` fields (wire entries and mock-feed quotes
both have exactly this shape). -/
structure Quote where
  symbol : String
  price : ℚ
  change : ℚ
  percentChange : ℚ
  ts : Nat
deriving DecidableEq

/-- Direction string of an alert: `"up"` or `"down"`. -/
inductive Direction
  | up
  | down
deriving DecidableEq

/-- An alert as passed to `addRecentAlert(symbol, direction, price)`. -/
structure AlertEvent where
  symbol : String
  direction : Direction
  price : ℚ
deriving DecidableEq

/-- A point pushed onto `chartHistory`: `{ ts: data.ts, price: data.price }`
(app.js line 329). -/
structure HistoryPoint where
  ts : Nat
  price : ℚ
deriving DecidableEq

/-- The JS object `latestPrices`, a map from symbol to its latest quote,
modelled as an association list with at most one binding per key. -/
abbrev PriceMap := List (String × Quote)

/-- Reading `latestPrices[sym]`: `some` the stored quote, `none` when absent
(JS `undefined`). -/
def lookupPrice : PriceMap → String → Option Quote
  | [], _ => none
  | (s, q) :: rest, sym => if s = sym then some q else lookupPrice rest sym

/-- Writing `latestPrices[sym] = q`: replace the existing binding or add a
new one. -/
def insertPrice : PriceMap → String → Quote → PriceMap
  | [], sym, q => [(sym, q)]
  | (s, q0) :: rest, sym, q =>
      if s = sym then (s, q) :: rest else (s, q0) :: insertPrice rest sym q

/-- The alert decision inlined in the message handler (app.js lines 365-371):
`prev && Math.abs(item.price - prev.price) >= 1.5` produces an alert whose
direction is `item.price > prev.price ? "up" : "down"` at `item.price`. -/
def checkAlert (prev : Option Quote) (next : Quote) : Option AlertEvent :=
  match prev with
  | none => none
  | some p =>
      if (3 : ℚ) / 2 ≤ |next.price - p.price| then
        some ⟨next.symbol, if p.price < next.price then .up else .down, next.price⟩
      else none

/-- One iteration of `msg.data.forEach` (app.js lines 361-372): capture
`prev = latestPrices[item.symbol]`, store the entry verbatim, and run the
alert check against `prev`.  There is no tracked-symbol filter. -/
def processEntry (st : PriceMap) (item : Quote) : PriceMap × Option AlertEvent :=
  (insertPrice st item.symbol item, checkAlert (lookupPrice st item.symbol) item)

/-- The whole `msg.data.forEach` loop: entries processed in order, alerts
collected in emission order. -/
def processEntries (st : PriceMap) (items : List Quote) : PriceMap × List AlertEvent :=
  items.foldl
    (fun acc item =>
      let r := processEntry acc.1 item
      (r.1, acc.2 ++ r.2.toList))
    (st, [])

/-- The core mutable state of app.js: `latestPrices`, `chartSymbol`,
`chartHistory`, and whether `chart` is non-null (`initChart` succeeded). -/
structure AppState where
  latestPrices : PriceMap
  chartSymbol : String
  chartHistory : List HistoryPoint
  chartInit : Bool
deriving DecidableEq

/-- The history-buffer mutation in `updateChart` (app.js lines 329-330):
`chartHistory.push(point); if (chartHistory.length > 20) chartHistory.shift()`. -/
def recordPoint (hist : List HistoryPoint) (p : HistoryPoint) : List HistoryPoint :=
  if 20 < (hist ++ [p]).length then (hist ++ [p]).drop 1 else hist ++ [p]

/-- `updateChart(symbol)` (app.js lines 324-336): no-op when `chart` is null
or when `latestPrices[symbol]` is undefined; otherwise records a history
point for the symbol's latest quote.  (The chart's own label/data arrays are
a pure view of `chartHistory` and are not modelled.) -/
def updateChart (s : AppState) (symbol : String) : AppState :=
  if s.chartInit = false then s
  else
    match lookupPrice s.latestPrices symbol with
    | none => s
    | some data => { s with chartHistory := recordPoint s.chartHistory ⟨data.ts, data.price⟩ }

/-- An inbound WebSocket frame after the `JSON.parse` attempt:
`unparseable` when `JSON.parse` throws, otherwise its `type` field and the
`data` array of entries. -/
inductive WsMessage
  | unparseable
  | parsed (ty : String) (data : List Quote)

/-- The `"message"` listener of `connectWebSocket` (app.js lines 351-376):
silently drop unparseable frames and frames whose `type` is not
`"price_update"`; otherwise process every entry, then refresh the table
(pure view) and call `updateChart(chartSymbol)`. -/
def handleMessage (s : AppState) (m : WsMessage) : AppState × List AlertEvent :=
  match m with
  | .unparseable => (s, [])
  | .parsed ty data =>
      if ty = "price_update" then
        let r := processEntries s.latestPrices data
        (updateChart { s with latestPrices := r.1 } s.chartSymbol, r.2)
      else (s, [])

/-- The row click listener in `renderStocksTable` (app.js lines 165-171):
`chartSymbol = symbol; chartHistory = [];` then re-render the table (pure
view) and `updateChart(chartSymbol)`. -/
def clickRow (s : AppState) (sym : String) : AppState :=
  updateChart { s with chartSymbol := sym, chartHistory := [] } sym

/-- State relevant to the fallback transition: the `usingMockFeed` guard and
an instrumentation counter of how many times `startMockFeed` has run (i.e.
how many generator intervals were started). -/
structure FallbackState where
  usingMockFeed : Bool
  generatorStarts : Nat
deriving DecidableEq

/-- A transport failure signal: the socket's `"error"` or `"close"` event. -/
inductive WsSignal
  | error
  | close
deriving DecidableEq

/-- The `"close"` and `"error"` listeners (app.js lines 378-384) are
identical: `if (!usingMockFeed) startMockFeed()`, and `startMockFeed`
(line 395) sets `usingMockFeed = true` and starts one generator interval. -/
def handleSignal (s : FallbackState) : WsSignal → FallbackState
  | _ =>
      if s.usingMockFeed then s
      else { usingMockFeed := true, generatorStarts := s.generatorStarts + 1 }

/-- The seed quote for tracked symbol number `idx` (app.js lines 400-407):
price `100 + idx * 50`, zero change and percentChange. -/
def seedQuote (idx : Nat) (sym : String) (now : Nat) : Quote :=
  { symbol := sym, price := 100 + (idx : ℚ) * 50, change := 0, percentChange := 0, ts := now }

/-- The seeding pass of `startMockFeed` (run only when `latestPrices` has no
keys): every tracked symbol gets its indexed seed quote. -/
def seedPrices (now : Nat) : PriceMap :=
  TRACKED_SYMBOLS.enum.map fun p => (p.2, seedQuote p.1 p.2 now)

/-- `delta = (Math.random() - 0.5) * 4` (app.js line 418), as a function of
the raw draw `r = Math.random()` (which lies in `[0, 1)`). -/
def mockDelta (r : ℚ) : ℚ := (r - 1 / 2) * 4

/-- The quote built by one mock tick for one symbol (app.js lines 419-429):
`newPrice = Math.max(1, prev.price + delta)`, `change = newPrice - prev.price`,
`percentChange = change / prev.price * 100`. -/
def tickQuote (sym : String) (prev : Quote) (r : ℚ) (now : Nat) : Quote :=
  let delta := mockDelta r
  let newPrice := max 1 (prev.price + delta)
  let change := newPrice - prev.price
  { symbol := sym, price := newPrice, change := change,
    percentChange := change / prev.price * 100, ts := now }

/-- The alert decision of the mock tick (app.js lines 431-433):
`Math.abs(change) >= 1.5` produces an alert whose direction is
`change > 0 ? "up" : "down"` at `newPrice`. -/
def tickAlert (q : Quote) : Option AlertEvent :=
  if (3 : ℚ) / 2 ≤ |q.change| then
    some ⟨q.symbol, if 0 < q.change then .up else .down, q.price⟩
  else none

/-- One firing of the `setInterval` callback of `startMockFeed` (app.js
lines 413-438), with the per-symbol random draws supplied by `rs`.  For each
tracked symbol the code reads `prev = latestPrices[sym]` and immediately
dereferences `prev.price`; when the symbol has no stored quote this throws a
TypeError, modelled as `none`. -/
def mockTick (st : PriceMap) (rs : String → ℚ) (now : Nat) :
    Option (PriceMap × List AlertEvent) :=
  TRACKED_SYMBOLS.foldl
    (fun acc sym =>
      match acc with
      | none => none
      | some r =>
          match lookupPrice r.1 sym with
          | none => none
          | some prev =>
              let q := tickQuote sym prev (rs sym) now
              some (insertPrice r.1 sym q, r.2 ++ (tickAlert q).toList))
    (some (st, []))

/-! ## Helper lemmas (shared) -/

lemma lookupPrice_insertPrice_self : ∀ (st : PriceMap) (sym : String) (q : Quote),
    lookupPrice (insertPrice st sym q) sym = some q
  | [], sym, q => by simp [insertPrice, lookupPrice]
  | (s, q0) :: rest, sym, q => by
      by_cases h : s = sym
      · simp [insertPrice, h, lookupPrice]
      · simp only [insertPrice, if_neg h, lookupPrice]
        exact lookupPrice_insertPrice_self rest sym q

lemma lookupPrice_insertPrice_ne : ∀ (st : PriceMap) (sym s' : String) (q : Quote),
    s' ≠ sym → lookupPrice (insertPrice st sym q) s' = lookupPrice st s'
  | [], sym, s', q, hne => by
      simp only [insertPrice, lookupPrice]
      rw [if_neg (fun h => hne h.symm)]
  | (s, q0) :: rest, sym, s', q, hne => by
      by_cases h : s = sym
      · subst h
        simp only [insertPrice, if_pos rfl, lookupPrice]
        rw [if_neg (fun h2 => hne h2.symm), if_neg (fun h2 => hne h2.symm)]
      · simp only [insertPrice, if_neg h, lookupPrice]
        by_cases h2 : s = s'
        · rw [if_pos h2, if_pos h2]
        · rw [if_neg h2, if_neg h2]
          exact lookupPrice_insertPrice_ne rest sym s' q hne

lemma foldl_handleSignal_fixed (l : List WsSignal) (s : FallbackState)
    (h : s.usingMockFeed = true) : l.foldl handleSignal s = s := by
  induction l with
  | nil => rfl
  | cons hd tl ih =>
      rw [List.foldl_cons]
      have : handleSignal s hd = s := by simp [handleSignal, h]
      rw [this]
      exact ih

lemma recordPoint_length_le (hist : List HistoryPoint) (p : HistoryPoint)
    (h : hist.length ≤ 20) : (recordPoint hist p).length ≤ 20 := by
  unfold recordPoint
  by_cases h20 : 20 < (hist ++ [p]).length
  · rw [if_pos h20]
    simp only [List.length_drop, List.length_append, List.length_singleton]
    omega
  · rw [if_neg h20]
    simp only [List.length_append, List.length_singleton] at h20 ⊢
    omega

lemma foldl_recordPoint_length_le (ps : List HistoryPoint) :
    ∀ hist : List HistoryPoint, hist.length ≤ 20 →
      (ps.foldl recordPoint hist).length ≤ 20 := by
  induction ps with
  | nil => intro hist h; simpa using h
  | cons q qs ih => intro hist h; exact ih _ (recordPoint_length_le hist q h)

lemma checkAlert_isSome_iff (prev : Option Quote) (next : Quote) :
    (checkAlert prev next).isSome = true ↔
      ∃ p, prev = some p ∧ (3 : ℚ) / 2 ≤ |next.price - p.price| := by
  cases prev with
  | none => simp [checkAlert]
  | some p =>
      by_cases hth : (3 : ℚ) / 2 ≤ |next.price - p.price|
      · simp [checkAlert, hth]
      · simp [checkAlert, hth]

lemma ite_dir_eq_up (c : Prop) [Decidable c] :
    ((if c then Direction.up else Direction.down) = Direction.up ↔ c) := by
  by_cases h : c <;> simp [h]

lemma ite_dir_eq_down (c : Prop) [Decidable c] :
    ((if c then Direction.up else Direction.down) = Direction.down ↔ ¬c) := by
  by_cases h : c <;> simp [h]

/-! ## Claim theorems -/

/-- C3: for every nonempty sequence of error/close signals fired on the same
connection attempt, starting from the initial state (`usingMockFeed` false,
no generator running), the synthetic generator is started exactly once and
`usingMockFeed` transitions to true exactly once; every signal arriving once
the fallback is active is a no-op on the state. -/
theorem fallback_starts_generator_once (sigs : List WsSignal) (hne : sigs ≠ []) :
    (sigs.foldl handleSignal ⟨false, 0⟩).usingMockFeed = true ∧
    (sigs.foldl handleSignal ⟨false, 0⟩).generatorStarts = 1 ∧
    ∀ (s : FallbackState) (sig : WsSignal), s.usingMockFeed = true →
      handleSignal s sig = s := by
  obtain ⟨a, l, rfl⟩ : ∃ a l, sigs = a :: l := by
    cases sigs with
    | nil => exact absurd rfl hne
    | cons a l => exact ⟨a, l, rfl⟩
  have h1 : handleSignal ⟨false, 0⟩ a = ⟨true, 1⟩ := rfl
  have h2 : (a :: l).foldl handleSignal ⟨false, 0⟩ = ⟨true, 1⟩ := by
    rw [List.foldl_cons, h1]
    exact foldl_handleSignal_fixed l ⟨true, 1⟩ rfl
  refine ⟨by rw [h2], by rw [h2], ?_⟩
  intro s sig hs
  simp [handleSignal, hs]

/-- Witness for C3 at the concrete signal sequence close, error, close. -/
theorem fallback_starts_generator_once_witness :
    ([WsSignal.close, WsSignal.error, WsSignal.close].foldl handleSignal
      ⟨false, 0⟩).generatorStarts = 1 :=
  (fallback_starts_generator_once [WsSignal.close, WsSignal.error, WsSignal.close]
    (by decide)).2.1

/-- C4: starting from any buffer within the 20-point bound, recording any
sequence of points keeps the length at most 20; recording at capacity drops
exactly the single oldest entry, recording under capacity drops nothing, and
the newest point is always last. -/
theorem history_bounded_fifo (hist ps : List HistoryPoint) (p : HistoryPoint)
    (h : hist.length ≤ 20) :
    (ps.foldl recordPoint hist).length ≤ 20 ∧
    (hist.length = 20 → recordPoint hist p = hist.drop 1 ++ [p]) ∧
    (hist.length < 20 → recordPoint hist p = hist ++ [p]) ∧
    (recordPoint hist p).getLast? = some p := by
  refine ⟨foldl_recordPoint_length_le ps hist h, ?_, ?_, ?_⟩
  · intro h20
    unfold recordPoint
    rw [if_pos (by simp [h20])]
    exact List.drop_append_of_le_length (by omega)
  · intro hlt
    unfold recordPoint
    rw [if_neg (by simp; omega)]
  · unfold recordPoint
    by_cases h20 : 20 < (hist ++ [p]).length
    · rw [if_pos h20, List.drop_append_of_le_length (by simp at h20 ⊢; omega)]
      exact List.getLast?_concat _
    · rw [if_neg h20]
      exact List.getLast?_concat _

/-- A sample history point for concrete evaluations. -/
def hp0 : HistoryPoint := ⟨0, 100⟩

/-- Witness for C4 at the empty buffer and one concrete point. -/
theorem history_bounded_fifo_witness :
    (recordPoint [] hp0).getLast? = some hp0 :=
  (history_bounded_fifo [] [hp0] hp0 (by decide)).2.2.2

/-- C1: on the live-message path, `checkAlert` yields an alert iff a previous
quote exists and the absolute price difference is at least 1.5, and any alert
produced carries `next.price` with direction Up exactly when the price rose;
on the synthetic-tick path, the alert test on the tick quote's `change` field
is the same threshold test on `|newPrice - prev.price|` with the same
direction and price. -/
theorem alert_threshold_iff :
    (∀ (prev : Option Quote) (next : Quote),
      (checkAlert prev next).isSome = true ↔
        ∃ p, prev = some p ∧ (3 : ℚ) / 2 ≤ |next.price - p.price|) ∧
    (∀ (p next : Quote) (a : AlertEvent), checkAlert (some p) next = some a →
      a.price = next.price ∧
      (a.direction = Direction.up ↔ p.price < next.price) ∧
      (a.direction = Direction.down ↔ ¬p.price < next.price)) ∧
    (∀ (sym : String) (prev : Quote) (r : ℚ) (now : Nat),
      ((tickAlert (tickQuote sym prev r now)).isSome = true ↔
        (3 : ℚ) / 2 ≤ |(tickQuote sym prev r now).price - prev.price|) ∧
      ∀ a : AlertEvent, tickAlert (tickQuote sym prev r now) = some a →
        a.price = (tickQuote sym prev r now).price ∧
        (a.direction = Direction.up ↔ prev.price < (tickQuote sym prev r now).price) ∧
        (a.direction = Direction.down ↔
          ¬prev.price < (tickQuote sym prev r now).price)) := by
  refine ⟨checkAlert_isSome_iff, ?_, ?_⟩
  · intro p next a h
    simp only [checkAlert] at h
    by_cases hth : (3 : ℚ) / 2 ≤ |next.price - p.price|
    · rw [if_pos hth] at h
      obtain rfl := Option.some.inj h
      exact ⟨rfl, ite_dir_eq_up _, ite_dir_eq_down _⟩
    · rw [if_neg hth] at h
      exact absurd h (by simp)
  · intro sym prev r now
    have hch : (tickQuote sym prev r now).change
        = (tickQuote sym prev r now).price - prev.price := rfl
    have hpos : (0 < (tickQuote sym prev r now).change) ↔
        prev.price < (tickQuote sym prev r now).price := by
      rw [hch]; exact sub_pos
    constructor
    · rw [show |(tickQuote sym prev r now).price - prev.price|
          = |(tickQuote sym prev r now).change| from by rw [hch]]
      unfold tickAlert
      by_cases hth : (3 : ℚ) / 2 ≤ |(tickQuote sym prev r now).change|
      · simp [hth]
      · simp [hth]
    · intro a h
      unfold tickAlert at h
      by_cases hth : (3 : ℚ) / 2 ≤ |(tickQuote sym prev r now).change|
      · rw [if_pos hth] at h
        obtain rfl := Option.some.inj h
        exact ⟨rfl, (ite_dir_eq_up _).trans hpos,
          (ite_dir_eq_down _).trans (not_congr hpos)⟩
      · rw [if_neg hth] at h
        exact absurd h (by simp)

/-- Sample previous quote for concrete evaluations. -/
def qPrev : Quote := ⟨"AAPL", 200, 0, 0, 0⟩

/-- Sample next quote (price moved up by 2) for concrete evaluations. -/
def qNext : Quote := ⟨"AAPL", 202, 2, 1, 1⟩

/-- Witness for C1 at the 200 → 202 transition of scenario 2 of the spec. -/
theorem alert_threshold_iff_witness :
    (⟨"AAPL", Direction.up, 202⟩ : AlertEvent).price = qNext.price ∧
    ((⟨"AAPL", Direction.up, 202⟩ : AlertEvent).direction = Direction.up ↔
      qPrev.price < qNext.price) ∧
    ((⟨"AAPL", Direction.up, 202⟩ : AlertEvent).direction = Direction.down ↔
      ¬qPrev.price < qNext.price) :=
  alert_threshold_iff.2.1 qPrev qNext ⟨"AAPL", Direction.up, 202⟩ (by
    simp only [checkAlert, qPrev, qNext]
    norm_num)

/-- C5: for every synthetic tick with raw draw `r ∈ [0,1)`, the delta lies in
the symmetric interval `[-2, 2]`, the new price is `max 1 (prev + delta)`
(hence at least 1), and the stored `change` and `percentChange` are derived
exactly as `newPrice - prev.price` and `change / prev.price * 100`. -/
theorem mock_tick_derived_fields (sym : String) (prev : Quote) (r : ℚ) (now : Nat)
    (h0 : 0 ≤ r) (h1 : r < 1) :
    -2 ≤ mockDelta r ∧ mockDelta r ≤ 2 ∧
    (tickQuote sym prev r now).price = max 1 (prev.price + mockDelta r) ∧
    1 ≤ (tickQuote sym prev r now).price ∧
    (tickQuote sym prev r now).change = (tickQuote sym prev r now).price - prev.price ∧
    (tickQuote sym prev r now).percentChange
      = (tickQuote sym prev r now).change / prev.price * 100 := by
  refine ⟨?_, ?_, rfl, ?_, rfl, rfl⟩
  · unfold mockDelta; linarith
  · unfold mockDelta; linarith
  · exact le_max_left 1 _

/-- Witness for C5 at the concrete draw `r = 3/4` (delta `+1`). -/
theorem mock_tick_derived_fields_witness :
    1 ≤ (tickQuote "AAPL" qPrev (3 / 4) 1).price :=
  (mock_tick_derived_fields "AAPL" qPrev (3 / 4) 1 (by norm_num) (by norm_num)).2.2.2.1

/-- C7: an unparseable frame, or a parsed frame whose `type` is not
`"price_update"`, leaves the whole state unchanged and emits nothing; the
handler is a total function, so no error escapes. -/
theorem non_price_update_noop (s : AppState) :
    handleMessage s WsMessage.unparseable = (s, []) ∧
    ∀ (ty : String) (data : List Quote), ty ≠ "price_update" →
      handleMessage s (WsMessage.parsed ty data) = (s, []) := by
  refine ⟨rfl, ?_⟩
  intro ty data hty
  simp only [handleMessage]
  rw [if_neg hty]

/-- Sample initial app state: empty store, "AAPL" selected, chart present. -/
def appState0 : AppState := ⟨[], "AAPL", [], true⟩

/-- Witness for C7 at the `{type:"ping"}` frame of scenario 6 of the spec. -/
theorem non_price_update_noop_witness :
    handleMessage appState0 (WsMessage.parsed "ping" []) = (appState0, []) :=
  (non_price_update_noop appState0).2 "ping" [] (by decide)

/-- C10: calling `updateChart` on the selected symbol while that symbol has
no stored quote changes nothing (and, being a total function, raises no
error). -/
theorem updateChart_noop_without_quote (s : AppState)
    (h : lookupPrice s.latestPrices s.chartSymbol = none) :
    updateChart s s.chartSymbol = s := by
  unfold updateChart
  by_cases hc : s.chartInit = false
  · rw [if_pos hc]
  · rw [if_neg hc, h]

/-- Witness for C10 at the fresh state whose store is empty. -/
theorem updateChart_noop_without_quote_witness :
    updateChart appState0 appState0.chartSymbol = appState0 :=
  updateChart_noop_without_quote appState0 (by decide)

lemma updateChart_chartSymbol (s : AppState) (sym : String) :
    (updateChart s sym).chartSymbol = s.chartSymbol := by
  unfold updateChart
  by_cases hc : s.chartInit = false
  · rw [if_pos hc]
  · rw [if_neg hc]
    cases lookupPrice s.latestPrices sym with
    | none => rfl
    | some q => rfl

lemma updateChart_chartHistory (s : AppState) (sym : String) :
    (updateChart s sym).chartHistory =
      (if s.chartInit = false then s.chartHistory
       else
         match lookupPrice s.latestPrices sym with
         | none => s.chartHistory
         | some q => recordPoint s.chartHistory ⟨q.ts, q.price⟩) := by
  unfold updateChart
  by_cases hc : s.chartInit = false
  · rw [if_pos hc, if_pos hc]
  · rw [if_neg hc, if_neg hc]
    cases lookupPrice s.latestPrices sym with
    | none => rfl
    | some q => rfl

/-- A quote for a symbol outside the tracked set. -/
def googQuote : Quote := ⟨"GOOG", 100, 0, 0, 0⟩

/-- C2 counterexample: the message handler has no tracked-symbol filter, so a
`price_update` entry for the untracked symbol "GOOG" mutates `latestPrices`
(the claim says the store is left unchanged). -/
theorem untracked_symbol_mutates_store :
    "GOOG" ∉ TRACKED_SYMBOLS ∧
    (handleMessage appState0 (WsMessage.parsed "price_update" [googQuote])).1.latestPrices
      ≠ appState0.latestPrices := by
  refine ⟨by decide, ?_⟩
  have h : (handleMessage appState0
      (WsMessage.parsed "price_update" [googQuote])).1.latestPrices
      = [("GOOG", googQuote)] := rfl
  rw [h]
  simp [appState0]

/-- C2 amended: entries are processed uniformly with no tracked-symbol
filter; an entry for an untracked symbol is stored into `latestPrices` under
its symbol (other symbols untouched) and triggers the same alert check as a
tracked one.  Untracked symbols are merely never displayed by the view
layer. -/
theorem untracked_entry_processed_like_tracked (st : PriceMap) (item : Quote)
    (_huntracked : item.symbol ∉ TRACKED_SYMBOLS) :
    lookupPrice (processEntry st item).1 item.symbol = some item ∧
    (∀ s', s' ≠ item.symbol →
      lookupPrice (processEntry st item).1 s' = lookupPrice st s') ∧
    ((processEntry st item).2.isSome = true ↔
      ∃ p, lookupPrice st item.symbol = some p ∧
        (3 : ℚ) / 2 ≤ |item.price - p.price|) := by
  refine ⟨lookupPrice_insertPrice_self st item.symbol item, ?_, ?_⟩
  · intro s' hne
    exact lookupPrice_insertPrice_ne st item.symbol s' item hne
  · rw [show (processEntry st item).2
        = checkAlert (lookupPrice st item.symbol) item from rfl]
    rw [checkAlert_isSome_iff]

/-- Witness for C2's amended claim at the untracked "GOOG" entry and the
empty store. -/
theorem untracked_entry_processed_like_tracked_witness :
    lookupPrice (processEntry [] googQuote).1 googQuote.symbol = some googQuote :=
  (untracked_entry_processed_like_tracked [] googQuote (by decide)).1

/-- A wire entry whose first appearance carries a nonzero `change` field. -/
def badQuote : Quote := ⟨"AAPL", 100, 999, 5, 7⟩

/-- C6 counterexample: the live path stores wire entries verbatim, so the
first-ever quote of "AAPL" can be stored with `change = 999 ≠ 0`, violating
the claimed invariant (first-ever quote must carry change 0, and in general
`change` must equal `price` minus the previous stored price). -/
theorem live_quote_change_not_recomputed :
    lookupPrice (processEntry [] badQuote).1 "AAPL" = some badQuote ∧
    badQuote.change ≠ 0 := by
  exact ⟨rfl, by decide⟩

/-- C6 amended: the derived-field invariant holds on the synthetic paths —
seed quotes carry `change = 0` and `percentChange = 0`, and tick quotes carry
`change = price - prev.price` and `percentChange = change / prev.price * 100`
— but quotes arriving from the live transport are stored verbatim with
whatever `change`/`percentChange` the message carried; the invariant is not
enforced there. -/
theorem derived_fields_by_path :
    (∀ (idx : Nat) (sym : String) (now : Nat),
      (seedQuote idx sym now).change = 0 ∧ (seedQuote idx sym now).percentChange = 0) ∧
    (∀ (sym : String) (prev : Quote) (r : ℚ) (now : Nat),
      (tickQuote sym prev r now).change
        = (tickQuote sym prev r now).price - prev.price ∧
      (tickQuote sym prev r now).percentChange
        = (tickQuote sym prev r now).change / prev.price * 100) ∧
    ∀ (st : PriceMap) (item : Quote),
      lookupPrice (processEntry st item).1 item.symbol = some item := by
  exact ⟨fun idx sym now => ⟨rfl, rfl⟩, fun sym prev r now => ⟨rfl, rfl⟩,
    fun st item => lookupPrice_insertPrice_self st item.symbol item⟩

/-- Twenty accumulated history points for the initially selected symbol. -/
def hist20 : List HistoryPoint := (List.range 20).map fun i => ⟨i, 100⟩

/-- Latest TSLA quote present in the store when the user switches symbols. -/
def tslaQuote : Quote := ⟨"TSLA", 150, 0, 0, 5⟩

/-- State with 20 AAPL history points accumulated and a TSLA quote stored. -/
def s20 : AppState := ⟨[("TSLA", tslaQuote)], "AAPL", hist20, true⟩

/-- Same state but with no accumulated history at all. -/
def s0empty : AppState := ⟨[("TSLA", tslaQuote)], "AAPL", [], true⟩

/-- C8 counterexample: selecting "TSLA" after accumulating 20 points for
"AAPL" yields a state identical to selecting it with no accumulated points;
since `AppState` is the entire mutable state, AAPL's buffer is destroyed by
the switch, not retained. -/
theorem symbol_switch_discards_history :
    s20.chartHistory.length = 20 ∧
    clickRow s20 "TSLA" = clickRow s0empty "TSLA" ∧
    (clickRow s20 "TSLA").chartHistory = [⟨tslaQuote.ts, tslaQuote.price⟩] := by
  exact ⟨by decide, rfl, rfl⟩

/-- C8 amended: selecting a symbol makes it the chart symbol and clears the
single shared history buffer (which `updateChart` then seeds with at most the
new symbol's current quote); the result is independent of any previously
accumulated history, so the previous symbol's points are discarded rather
than retained. -/
theorem select_symbol_resets_shared_buffer (s : AppState) (sym : String) :
    (clickRow s sym).chartSymbol = sym ∧
    (clickRow s sym).chartHistory =
      (if s.chartInit = false then ([] : List HistoryPoint)
       else
         match lookupPrice s.latestPrices sym with
         | none => []
         | some q => [⟨q.ts, q.price⟩]) ∧
    ∀ h' : List HistoryPoint,
      clickRow { s with chartHistory := h' } sym = clickRow s sym := by
  refine ⟨?_, ?_, fun h' => rfl⟩
  · simp only [clickRow]
    rw [updateChart_chartSymbol]
  · simp only [clickRow]
    rw [updateChart_chartHistory]
    by_cases hc : s.chartInit = false
    · simp [hc]
    · simp only [hc, if_false]
      cases hq : lookupPrice s.latestPrices sym with
      | none => simp [hq]
      | some q => simp [hq, recordPoint]

/-- C9: one firing of the mock-feed tick on the reachable store that holds a
quote for "AAPL" only (live data arrived for AAPL alone before the
connection failed, so the seeding pass is skipped): the tick reads
`latestPrices["TSLA"]`, gets `undefined`, and dereferencing `.price` throws —
modelled as the `none` outcome. -/
theorem mockTick_crashes_on_partial_store :
    mockTick [("AAPL", qPrev)] (fun _ => 1 / 2) 0 = none := rfl

end StockWidget
